import Mathlib

/-!
Verification of the educational ERP system (src/main.py) against its
specification. The repository state is the JSON-shaped dict tree
{streams: {name: {classes: {name: {students: ...}}, faculty: {id: ...}}},
 student_counter, faculty_counter}. Python dicts are modelled as
association lists (String keys, insertion order preserved, keys unique in
every state the program produces); `del` removes the key, assignment to an
existing key updates it in place, assignment to a fresh key appends.

The interactive glue (select_option / get_valid_input prompts and the y/n
confirmations) is the excluded menu layer: each core operation is modelled
as a function of the already-selected arguments; selecting a key that is
absent corresponds to the operation failing with NotFound and performing
no mutation, exactly as the early `return` paths of the source do.
-/

namespace Erp

/-- Lookup in a Python-dict modelled as an association list
(first entry with the key; keys are unique in program states). -/
def dget (k : String) : List (String × α) → Option α
  | [] => none
  | p :: rest => if p.1 = k then some p.2 else dget k rest

/-- Assignment `m[k] = v` on a Python dict: update in place if the key is
present, append otherwise. -/
def dinsert (k : String) (v : α) : List (String × α) → List (String × α)
  | [] => [(k, v)]
  | p :: rest => if p.1 = k then (k, v) :: rest else p :: dinsert k v rest

/-- Deletion `del m[k]` on a Python dict: drop the entry with key `k`. -/
def derase (k : String) : List (String × α) → List (String × α)
  | [] => []
  | p :: rest => if p.1 = k then derase k rest else p :: derase k rest

/-- Decimal digits, most significant first, with explicit fuel so the
recursion is structural (the fuel never runs out when it starts at `n`). -/
def natToDigitsFuel : Nat → Nat → List Nat
  | 0, n => [n % 10]
  | fuel + 1, n => if n < 10 then [n] else natToDigitsFuel fuel (n / 10) ++ [n % 10]

/-- Decimal digits of `n`, most significant first (no leading zeros;
`0` is the single digit `[0]`). -/
def natToDigits (n : Nat) : List Nat := natToDigitsFuel n n

/-- Value of a digit list read most-significant-first. -/
def digitsVal (ds : List Nat) : Nat := ds.foldl (fun a d => a * 10 + d) 0

/-- Zero-pad a digit list on the left to width 3 (Python's `%03d`). -/
def pad3 (ds : List Nat) : List Nat := List.replicate (3 - ds.length) 0 ++ ds

/-- The decimal rendering `f"{n:03d}"` used by the ID format strings. -/
def fmt03 (n : Nat) : String := ⟨(pad3 (natToDigits n)).map Nat.digitChar⟩

/-- Student ID `f"STU{counter:03d}"` (main.py lines 31 and 143). -/
def studentId (n : Nat) : String := "STU" ++ fmt03 n

/-- Faculty ID `f"FAC{counter:03d}"` (main.py line 154). -/
def facultyId (n : Nat) : String := "FAC" ++ fmt03 n

/-- A student record `{"name": ...}`. -/
structure Student where
  name : String
  deriving Repr, DecidableEq

/-- A faculty record `{"name": ..., "assigned_class": ...}`;
`assigned_class` is `None` or a class name of the same stream. -/
structure Faculty where
  name : String
  assigned_class : Option String
  deriving Repr, DecidableEq

/-- The `students` field of a class on disk: either the legacy ordered
list of plain names, or the current ID-keyed mapping. -/
inductive StudentsField where
  | legacy (names : List String)
  | idMap (students : List (String × Student))
  deriving Repr, DecidableEq

/-- A class as loaded from the file (students possibly legacy). -/
structure RClass where
  students : StudentsField
  deriving Repr, DecidableEq

/-- A stream as loaded from the file. -/
structure RStream where
  classes : List (String × RClass)
  faculty : List (String × Faculty)
  deriving Repr, DecidableEq

/-- A full repository state as the program holds it after the
counter-defaulting step: streams tree plus the two ID counters. -/
structure Repo where
  streams : List (String × RStream)
  student_counter : Nat
  faculty_counter : Nat
  deriving Repr, DecidableEq

/-- A parsed backing file: same tree, but either counter field may be
absent (older file shapes). -/
structure RawFile where
  streams : List (String × RStream)
  student_counter : Option Nat
  faculty_counter : Option Nat
  deriving Repr, DecidableEq

/-- True iff the class's students are already the ID-keyed mapping. -/
def StudentsField.isIdMap : StudentsField → Bool
  | .legacy _ => false
  | .idMap _ => true

/-- Migration of one legacy class body (main.py lines 29-34): walk the
name list in order, giving each name the ID `STU<counter>` and
incrementing the counter. Already-mapped classes are untouched
(the `isinstance(..., list)` guard on line 28). -/
def migrateClass (c : Nat) (cl : RClass) : Nat × RClass :=
  match cl.students with
  | .idMap _ => (c, cl)
  | .legacy names =>
      let p := names.foldl
        (fun (acc : Nat × List (String × Student)) nm =>
          (acc.1 + 1, acc.2 ++ [(studentId acc.1, ⟨nm⟩)]))
        (c, [])
      (p.1, ⟨.idMap p.2⟩)

/-- Migration over the classes of one stream, threading the counter. -/
def migrateClasses (c : Nat) : List (String × RClass) → Nat × List (String × RClass)
  | [] => (c, [])
  | (k, cl) :: rest =>
      let p := migrateClass c cl
      let q := migrateClasses p.1 rest
      (q.1, (k, p.2) :: q.2)

/-- Migration over all streams, threading the counter. -/
def migrateStreams (c : Nat) : List (String × RStream) → Nat × List (String × RStream)
  | [] => (c, [])
  | (k, st) :: rest =>
      let p := migrateClasses c st.classes
      let q := migrateStreams p.1 rest
      (q.1, (k, { st with classes := p.2 }) :: q.2)

/-- The auto-migration loop of `load_data` (main.py lines 26-34): runs
over every stream and class, converting legacy lists in place and
advancing `student_counter` as it goes. -/
def migrate (r : Repo) : Repo :=
  let p := migrateStreams r.student_counter r.streams
  { r with streams := p.2, student_counter := p.1 }

/-- The fresh empty state `{"streams": {}, "student_counter": 1,
"faculty_counter": 1}` (main.py lines 14 and 17). -/
def freshRepo : Repo := ⟨[], 1, 1⟩

/-- `load_data` (main.py lines 8-36) on the outcomes its handler covers.
The input encodes the file system outcome: `none` = file absent (line 13
branch), `some none` = a read or parse failure of one of the two
exception kinds the `except (IOError, json.JSONDecodeError)` clause on
line 15 actually catches, `some (some f)` = file parsed as `f`. Counters
absent from a parsed file default to 1 (lines 20-23) before the
migration loop runs (lines 26-34, unconditionally). A failure the
handler does not catch is not an input here: see `load_data_total`. -/
def load_data : Option (Option RawFile) → Repo
  | none => migrate freshRepo
  | some none => migrate freshRepo
  | some (some f) =>
      migrate ⟨f.streams, f.student_counter.getD 1, f.faculty_counter.getD 1⟩

/-- The full space of outcomes of reading the backing file. `open` in
text mode decodes the bytes: a file that is not valid UTF-8 makes
`json.load` raise UnicodeDecodeError, which is a ValueError but neither
an IOError nor a json.JSONDecodeError, so the line 15 handler does not
match it — distinguished here from the two caught kinds. -/
inductive ReadOutcome where
  | fileAbsent
  | caughtError
  | decodeError
  | parsed (f : RawFile)
  deriving Repr, DecidableEq

/-- `load_data` over every read outcome. The two handled failure kinds
recover with the fresh state; a UnicodeDecodeError escapes the
`except (IOError, json.JSONDecodeError)` clause (main.py line 15) and
propagates, so load aborts with no repository produced (`none` = the
uncaught exception kills the call). -/
def load_data_total : ReadOutcome → Option Repo
  | .fileAbsent => some (load_data none)
  | .caughtError => some (load_data (some none))
  | .decodeError => none
  | .parsed f => some (load_data (some (some f)))

/-- A class in the state the operations run on: students are the
ID-keyed mapping (every state reached through `load_data` and the
operations has this shape). -/
structure SClass where
  students : List (String × Student)
  deriving Repr, DecidableEq

/-- A stream in the state the operations run on. -/
structure SStream where
  classes : List (String × SClass)
  faculty : List (String × Faculty)
  deriving Repr, DecidableEq

/-- A repository state in the shape the operations run on. -/
structure Data where
  streams : List (String × SStream)
  student_counter : Nat
  faculty_counter : Nat
  deriving Repr, DecidableEq

/-- Error kinds returned by the model operations. -/
inductive ErpError where
  | NotFound
  | DuplicateKey
  | Conflict
  deriving Repr, DecidableEq

/-- Outcome of one mutating operation: success (with the new ID for the
two allocating operations) or failure, in both cases together with the
full repository state after the call — the source mutates `data` in
place, so the failure branches carry the state exactly as the early
`return` paths leave it. -/
inductive Res where
  | done (newId : Option String) (d : Data)
  | fail (e : ErpError) (d : Data)
  deriving Repr, DecidableEq

/-- The repository state after an operation, whatever its outcome. -/
def Res.post : Res → Data
  | .done _ d => d
  | .fail _ d => d

/-- `add_stream` (main.py lines 108-114): duplicate name is rejected,
otherwise an empty stream `{"classes": {}, "faculty": {}}` is inserted. -/
def add_stream (d : Data) (name : String) : Res :=
  match dget name d.streams with
  | some _ => .fail .DuplicateKey d
  | none => .done none { d with streams := dinsert name ⟨[], []⟩ d.streams }

/-- `add_class` (main.py lines 116-126): absent stream is NotFound,
duplicate class name in the stream is rejected, otherwise an empty class
`{"students": {}}` is inserted. -/
def add_class (d : Data) (s c : String) : Res :=
  match dget s d.streams with
  | none => .fail .NotFound d
  | some st =>
      match dget c st.classes with
      | some _ => .fail .DuplicateKey d
      | none =>
          let st' := { st with classes := dinsert c ⟨[]⟩ st.classes }
          .done none { d with streams := dinsert s st' d.streams }

/-- `add_student` (main.py lines 128-146): absent stream or class is
NotFound; otherwise the next `STU` ID is allocated, `student_counter`
is incremented, and the student is inserted under that ID. -/
def add_student (d : Data) (s c nm : String) : Res :=
  match dget s d.streams with
  | none => .fail .NotFound d
  | some st =>
      match dget c st.classes with
      | none => .fail .NotFound d
      | some cl =>
          let sid := studentId d.student_counter
          let st' := { st with classes := dinsert c ⟨dinsert sid ⟨nm⟩ cl.students⟩ st.classes }
          .done (some sid)
            { d with streams := dinsert s st' d.streams,
                     student_counter := d.student_counter + 1 }

/-- `add_faculty` (main.py lines 148-160): absent stream is NotFound;
otherwise the next `FAC` ID is allocated, `faculty_counter` is
incremented, and the faculty is inserted with `assigned_class = None`. -/
def add_faculty (d : Data) (s nm : String) : Res :=
  match dget s d.streams with
  | none => .fail .NotFound d
  | some st =>
      let fid := facultyId d.faculty_counter
      let st' := { st with faculty := dinsert fid ⟨nm, none⟩ st.faculty }
      .done (some fid)
        { d with streams := dinsert s st' d.streams,
                 faculty_counter := d.faculty_counter + 1 }

/-- `assign_faculty` (main.py lines 162-189): absent stream or faculty is
NotFound. A `none` class argument is the Back choice at the class
selection (line 181-183): the function returns without touching the
assignment. With a class name, an absent class is NotFound, otherwise
`assigned_class` is overwritten with that name. -/
def assign_faculty (d : Data) (s fid : String) (c : Option String) : Res :=
  match dget s d.streams with
  | none => .fail .NotFound d
  | some st =>
      match dget fid st.faculty with
      | none => .fail .NotFound d
      | some f =>
          match c with
          | none => .done none d
          | some cn =>
              match dget cn st.classes with
              | none => .fail .NotFound d
              | some _ =>
                  let f' := { f with assigned_class := some cn }
                  let st' := { st with faculty := dinsert fid f' st.faculty }
                  .done none { d with streams := dinsert s st' d.streams }

/-- `remove_stream` (main.py lines 191-202, confirmed path): absent
stream is NotFound, otherwise the whole stream entry is deleted
(`del data["streams"][stream]`), cascading over its classes, students
and faculty. -/
def remove_stream (d : Data) (s : String) : Res :=
  match dget s d.streams with
  | none => .fail .NotFound d
  | some _ => .done none { d with streams := derase s d.streams }

/-- `remove_class` (main.py lines 204-235, confirmed path): absent stream
or class is NotFound; if any faculty of the stream has `assigned_class`
equal to the class name (lines 219-223) the call fails with Conflict and
changes nothing; otherwise the class entry is deleted. -/
def remove_class (d : Data) (s c : String) : Res :=
  match dget s d.streams with
  | none => .fail .NotFound d
  | some st =>
      match dget c st.classes with
      | none => .fail .NotFound d
      | some _ =>
          if st.faculty.any (fun p => p.2.assigned_class = some c) then
            .fail .Conflict d
          else
            let st' := { st with classes := derase c st.classes }
            .done none { d with streams := dinsert s st' d.streams }

/-- `remove_student` (main.py lines 237-266, confirmed path): absent
stream, class or student ID is NotFound, otherwise the student entry is
deleted. -/
def remove_student (d : Data) (s c sid : String) : Res :=
  match dget s d.streams with
  | none => .fail .NotFound d
  | some st =>
      match dget c st.classes with
      | none => .fail .NotFound d
      | some cl =>
          match dget sid cl.students with
          | none => .fail .NotFound d
          | some _ =>
              let st' := { st with classes := dinsert c ⟨derase sid cl.students⟩ st.classes }
              .done none { d with streams := dinsert s st' d.streams }

/-- `remove_faculty` (main.py lines 268-288, confirmed path): absent
stream or faculty ID is NotFound, otherwise the faculty entry is deleted
(no cascade: the assignment reference vanishes with the record). -/
def remove_faculty (d : Data) (s fid : String) : Res :=
  match dget s d.streams with
  | none => .fail .NotFound d
  | some st =>
      match dget fid st.faculty with
      | none => .fail .NotFound d
      | some _ =>
          let st' := { st with faculty := derase fid st.faculty }
          .done none { d with streams := dinsert s st' d.streams }

/-- One invocation of a mutating model operation with its arguments. -/
inductive Op where
  | addStream (name : String)
  | addClass (s c : String)
  | addStudent (s c nm : String)
  | addFaculty (s nm : String)
  | assignFaculty (s fid : String) (c : Option String)
  | removeStream (s : String)
  | removeClass (s c : String)
  | removeStudent (s c sid : String)
  | removeFaculty (s fid : String)
  deriving Repr, DecidableEq

/-- Dispatch of one operation on a state. -/
def applyOp (d : Data) : Op → Res
  | .addStream n => add_stream d n
  | .addClass s c => add_class d s c
  | .addStudent s c nm => add_student d s c nm
  | .addFaculty s nm => add_faculty d s nm
  | .assignFaculty s fid c => assign_faculty d s fid c
  | .removeStream s => remove_stream d s
  | .removeClass s c => remove_class d s c
  | .removeStudent s c sid => remove_student d s c sid
  | .removeFaculty s fid => remove_faculty d s fid

/-- Run a sequence of operations from a state, collecting in order the
IDs returned by the successful `add_student` calls. -/
def runIds : Data → List Op → List String
  | _, [] => []
  | d, .addStudent s c nm :: rest =>
      match add_student d s c nm with
      | .done (some sid) d' => sid :: runIds d' rest
      | .done none d' => runIds d' rest
      | .fail _ d' => runIds d' rest
  | d, op :: rest => runIds (applyOp d op).post rest

/-- Run a sequence of operations from a state, collecting in order the
`student_counter` values from which the successful `add_student` calls
allocated their IDs. -/
def runCtrs : Data → List Op → List Nat
  | _, [] => []
  | d, .addStudent s c nm :: rest =>
      match add_student d s c nm with
      | .done _ d' => d.student_counter :: runCtrs d' rest
      | .fail _ d' => runCtrs d' rest
  | d, op :: rest => runCtrs (applyOp d op).post rest

/-- An operations-shaped class viewed as file content: the students are
the ID-keyed mapping (current schema). -/
def rclassOfS (c : SClass) : RClass := ⟨.idMap c.students⟩

/-- An operations-shaped stream viewed as file content. -/
def rstreamOfS (s : SStream) : RStream :=
  ⟨s.classes.map (fun p => (p.1, rclassOfS p.2)), s.faculty⟩

/-- An operations-shaped repository state viewed as the tree `load_data`
returns: identical streams, classes, students, faculty and counters. -/
def repoOfData (d : Data) : Repo :=
  ⟨d.streams.map (fun p => (p.1, rstreamOfS p.2)), d.student_counter, d.faculty_counter⟩

/-- `save_data` (main.py lines 38-43) serializes the whole state as one
document; re-parsing that document gives back the same tree with both
counter fields present. For a state in the operations shape this is the
resulting file content. -/
def save_data (d : Data) : RawFile :=
  ⟨(repoOfData d).streams, some d.student_counter, some d.faculty_counter⟩

/-- True iff no class of the repository stores its students as a legacy
list, i.e. the state is already migrated. -/
def Repo.noLegacy (r : Repo) : Bool :=
  r.streams.all (fun p => p.2.classes.all (fun q => q.2.students.isIdMap))

/-- The mapping the migration of a legacy name list produces, described
directly: the names in list order, keyed by consecutive student IDs
starting at counter value `c` (the spec's wording of the migration). -/
def seqStudents : Nat → List String → List (String × Student)
  | _, [] => []
  | c, nm :: rest => (studentId c, ⟨nm⟩) :: seqStudents (c + 1) rest

/-- The scenario stream: state after `addStream "BCA"` from fresh. -/
def bcaStep1 : Data := (add_stream ⟨[], 1, 1⟩ "BCA").post

/-- Scenario state after `addClass "BCA" "1A"`. -/
def bcaStep2 : Data := (add_class bcaStep1 "BCA" "1A").post

/-- Scenario state after `addFaculty "BCA" "Dr. Rao"` (returns FAC001). -/
def bcaStep3 : Data := (add_faculty bcaStep2 "BCA" "Dr. Rao").post

/-- Scenario state after `assignFaculty "BCA" "FAC001" "1A"`. -/
def bcaAssigned : Data := (assign_faculty bcaStep3 "BCA" "FAC001" (some "1A")).post

/-- Scenario state after `removeFaculty "BCA" "FAC001"` from the
assigned state. -/
def bcaNoFac : Data := (remove_faculty bcaAssigned "BCA" "FAC001").post

/-- A small already-migrated repository, used to exercise theorems on a
concrete state. -/
def exMigrated : Repo :=
  ⟨[("S", ⟨[("C", ⟨.idMap [("STU001", ⟨"Asha"⟩)]⟩)], []⟩)], 2, 1⟩

/-- A state whose faculty ID `FAC001` coincides with the ID the next
`add_faculty` call will generate (`faculty_counter` is still 1), as can
arise from a loaded file whose counters do not dominate its IDs. -/
def collideData : Data :=
  ⟨[("S", ⟨[("1A", ⟨[]⟩)], [("FAC001", ⟨"Dr. X", some "1A"⟩)]⟩)], 1, 1⟩

/-! Dictionary lemmas. -/

theorem dget_dinsert_self (k : String) (v : α) (m : List (String × α)) :
    dget k (dinsert k v m) = some v := by
  induction m with
  | nil => simp [dget, dinsert]
  | cons p rest ih =>
      obtain ⟨a, w⟩ := p
      by_cases h : a = k
      · subst h
        simp [dget, dinsert]
      · simp [dget, dinsert, h, ih]

theorem dget_dinsert_ne (k k' : String) (hk : k' ≠ k) (v : α) (m : List (String × α)) :
    dget k' (dinsert k v m) = dget k' m := by
  have hk' : ¬(k = k') := fun h => hk h.symm
  induction m with
  | nil => simp [dget, dinsert, hk']
  | cons p rest ih =>
      obtain ⟨a, w⟩ := p
      by_cases h : a = k
      · subst h
        simp [dget, dinsert, hk']
      · simp [dget, dinsert, h, ih]

theorem dget_derase_self (k : String) (m : List (String × α)) :
    dget k (derase k m) = none := by
  induction m with
  | nil => simp [dget, derase]
  | cons p rest ih =>
      obtain ⟨a, w⟩ := p
      by_cases h : a = k
      · simp [derase, h, ih]
      · simp [dget, derase, h, ih]

theorem dget_derase_ne (k k' : String) (hk : k' ≠ k) (m : List (String × α)) :
    dget k' (derase k m) = dget k' m := by
  have hk' : ¬(k = k') := fun h => hk h.symm
  induction m with
  | nil => simp [derase]
  | cons p rest ih =>
      obtain ⟨a, w⟩ := p
      by_cases h : a = k
      · subst h
        simp [dget, derase, hk', ih]
      · simp [dget, derase, h, ih]

/-! ID rendering: `fmt03` is injective, hence generated IDs never
collide across distinct counter values. -/

theorem digitsVal_append (xs : List Nat) (d : Nat) :
    digitsVal (xs ++ [d]) = 10 * digitsVal xs + d := by
  simp [digitsVal, List.foldl_append, Nat.mul_comm]

theorem digitsVal_natToDigitsFuel (fuel : Nat) :
    ∀ n, n ≤ fuel → digitsVal (natToDigitsFuel fuel n) = n := by
  induction fuel with
  | zero =>
      intro n hn
      have : n = 0 := Nat.le_zero.mp hn
      subst this
      simp [natToDigitsFuel, digitsVal]
  | succ f ih =>
      intro n hn
      by_cases h : n < 10
      · simp [natToDigitsFuel, h, digitsVal]
      · have hd : n / 10 ≤ f := by omega
        simp [natToDigitsFuel, h, digitsVal_append, ih _ hd]
        omega

theorem digitsVal_natToDigits (n : Nat) : digitsVal (natToDigits n) = n :=
  digitsVal_natToDigitsFuel n n (Nat.le_refl n)

theorem digitsVal_replicate_zero (k : Nat) (ds : List Nat) :
    digitsVal (List.replicate k 0 ++ ds) = digitsVal ds := by
  induction k with
  | zero => simp
  | succ j ih => simpa [List.replicate_succ, digitsVal] using ih

theorem digitsVal_pad3 (ds : List Nat) : digitsVal (pad3 ds) = digitsVal ds :=
  digitsVal_replicate_zero _ ds

theorem natToDigitsFuel_lt_ten (fuel : Nat) : ∀ n, ∀ d ∈ natToDigitsFuel fuel n, d < 10 := by
  induction fuel with
  | zero =>
      intro n d hd
      simp only [natToDigitsFuel, List.mem_singleton] at hd
      omega
  | succ f ih =>
      intro n d hd
      by_cases h : n < 10
      · simp [natToDigitsFuel, h] at hd
        omega
      · simp only [natToDigitsFuel, h, if_false, List.mem_append,
          List.mem_singleton] at hd
        rcases hd with hmem | rfl
        · exact ih _ d hmem
        · omega

theorem natToDigits_lt_ten (n : Nat) : ∀ d ∈ natToDigits n, d < 10 :=
  natToDigitsFuel_lt_ten n n

theorem pad3_lt_ten (ds : List Nat) (h : ∀ d ∈ ds, d < 10) :
    ∀ d ∈ pad3 ds, d < 10 := by
  intro d hd
  rcases List.mem_append.mp hd with hm | hm
  · have := List.eq_of_mem_replicate hm
    omega
  · exact h d hm

theorem digitChar_inj_lt :
    ∀ a < 10, ∀ b < 10, Nat.digitChar a = Nat.digitChar b → a = b := by decide

theorem map_digitChar_inj (l₁ l₂ : List Nat)
    (h₁ : ∀ d ∈ l₁, d < 10) (h₂ : ∀ d ∈ l₂, d < 10)
    (h : l₁.map Nat.digitChar = l₂.map Nat.digitChar) : l₁ = l₂ := by
  induction l₁ generalizing l₂ with
  | nil => cases l₂ <;> simp_all
  | cons a t ih =>
      cases l₂ with
      | nil => simp_all
      | cons b t' =>
          simp only [List.map_cons, List.cons.injEq] at h
          have ha : a < 10 := h₁ a (by simp)
          have hb : b < 10 := h₂ b (by simp)
          have : a = b := digitChar_inj_lt a ha b hb h.1
          subst this
          have := ih t' (fun d hd => h₁ d (by simp [hd]))
            (fun d hd => h₂ d (by simp [hd])) h.2
          simp [this]

theorem fmt03_inj (a b : Nat) (h : fmt03 a = fmt03 b) : a = b := by
  unfold fmt03 at h
  have hl : (pad3 (natToDigits a)).map Nat.digitChar
      = (pad3 (natToDigits b)).map Nat.digitChar := congrArg String.data h
  have hp : pad3 (natToDigits a) = pad3 (natToDigits b) :=
    map_digitChar_inj _ _ (pad3_lt_ten _ (natToDigits_lt_ten a))
      (pad3_lt_ten _ (natToDigits_lt_ten b)) hl
  have := congrArg digitsVal hp
  rwa [digitsVal_pad3, digitsVal_pad3, digitsVal_natToDigits,
    digitsVal_natToDigits] at this

theorem studentId_inj (a b : Nat) (h : studentId a = studentId b) : a = b := by
  unfold studentId at h
  have hl : "STU".data ++ (fmt03 a).data = "STU".data ++ (fmt03 b).data :=
    congrArg String.data h
  have : (fmt03 a).data = (fmt03 b).data := by
    simpa using hl
  exact fmt03_inj a b (by cases hfa : fmt03 a; cases hfb : fmt03 b; simp_all)

/-! Operation lemmas. -/

theorem applyOp_student_counter_mono (d : Data) (op : Op) :
    d.student_counter ≤ ((applyOp d op).post).student_counter := by
  rcases h : applyOp d op with ⟨o, d'⟩ | ⟨e, d'⟩ <;>
    simp only [Res.post] <;>
    cases op <;>
    simp only [applyOp, add_stream, add_class, add_student, add_faculty,
      assign_faculty, remove_stream, remove_class, remove_student, remove_faculty] at h <;>
    (repeat' split at h)
  all_goals (try (cases h))
  all_goals simp

theorem add_student_done (d : Data) (s c nm : String) (o : Option String) (d' : Data)
    (h : add_student d s c nm = .done o d') :
    o = some (studentId d.student_counter) ∧
      d'.student_counter = d.student_counter + 1 := by
  unfold add_student at h
  repeat' split at h
  all_goals (try (cases h))
  all_goals simp

theorem runIds_eq_map (ops : List Op) : ∀ d, runIds d ops = (runCtrs d ops).map studentId := by
  induction ops with
  | nil => intro d; simp [runIds, runCtrs]
  | cons op rest ih =>
      intro d
      cases op
      case addStudent s c nm =>
        rcases hres : add_student d s c nm with ⟨o, d'⟩ | ⟨e, d'⟩
        · obtain ⟨ho, _⟩ := add_student_done d s c nm o d' hres
          subst ho
          simp [runIds, runCtrs, hres, ih]
        · simp [runIds, runCtrs, hres, ih]
      all_goals simp [runIds, runCtrs, ih]

theorem runCtrs_lower (ops : List Op) : ∀ d x, x ∈ runCtrs d ops → d.student_counter ≤ x := by
  induction ops with
  | nil => intro d x hx; simp [runCtrs] at hx
  | cons op rest ih =>
      intro d x hx
      cases op
      case addStudent s c nm =>
        rcases hres : add_student d s c nm with ⟨o, d'⟩ | ⟨e, d'⟩
        · obtain ⟨_, hctr⟩ := add_student_done d s c nm o d' hres
          simp only [runCtrs, hres, List.mem_cons] at hx
          rcases hx with rfl | hx
          · exact Nat.le_refl _
          · have := ih d' x hx
            omega
        · simp only [runCtrs, hres] at hx
          have hx' := ih d' x hx
          have hmono := applyOp_student_counter_mono d (Op.addStudent s c nm)
          have hpost : ((applyOp d (Op.addStudent s c nm)).post) = d' := by
            simp [applyOp, hres, Res.post]
          rw [hpost] at hmono
          omega
      all_goals
        simp only [runCtrs] at hx
      all_goals
        exact Nat.le_trans (applyOp_student_counter_mono d _) (ih _ x hx)

theorem runCtrs_pairwise (ops : List Op) : ∀ d, List.Pairwise (· < ·) (runCtrs d ops) := by
  induction ops with
  | nil => intro d; simp [runCtrs]
  | cons op rest ih =>
      intro d
      cases op
      case addStudent s c nm =>
        rcases hres : add_student d s c nm with ⟨o, d'⟩ | ⟨e, d'⟩
        · obtain ⟨_, hctr⟩ := add_student_done d s c nm o d' hres
          simp only [runCtrs, hres]
          refine List.Pairwise.cons ?_ (ih d')
          intro x hx
          have := runCtrs_lower rest d' x hx
          omega
        · simp only [runCtrs, hres]
          exact ih d'
      all_goals (simp only [runCtrs]; exact ih _)

/-- C1: over any sequence of operations (addStudent interleaved with
arbitrary removeStudent and other calls) from any repository state, the
IDs returned by the successful addStudent calls are `STU<NNN>` renderings
of a strictly increasing sequence of counter values, hence pairwise
distinct; and no operation ever decreases `student_counter`. -/
theorem addStudent_ids_strictly_increasing (d : Data) (ops : List Op) :
    runIds d ops = (runCtrs d ops).map studentId ∧
    List.Pairwise (· < ·) (runCtrs d ops) ∧
    List.Pairwise (· ≠ ·) (runIds d ops) ∧
    ∀ op : Op, d.student_counter ≤ ((applyOp d op).post).student_counter := by
  refine ⟨runIds_eq_map ops d, runCtrs_pairwise ops d, ?_,
    fun op => applyOp_student_counter_mono d op⟩
  rw [runIds_eq_map ops d]
  exact List.Pairwise.map _
    (fun a b hab hid => absurd (studentId_inj a b hid) (Nat.ne_of_lt hab))
    (runCtrs_pairwise ops d)

/-! Migration lemmas. -/

theorem migrateClass_idMap (c : Nat) (cl : RClass) (h : cl.students.isIdMap = true) :
    migrateClass c cl = (c, cl) := by
  obtain ⟨stf⟩ := cl
  cases stf with
  | legacy names => simp [StudentsField.isIdMap] at h
  | idMap m => simp [migrateClass]

theorem migrateClasses_idMap (cls : List (String × RClass))
    (h : ∀ p ∈ cls, p.2.students.isIdMap = true) :
    ∀ c, migrateClasses c cls = (c, cls) := by
  induction cls with
  | nil => intro c; simp [migrateClasses]
  | cons p rest ih =>
      intro c
      obtain ⟨k, cl⟩ := p
      have h1 : cl.students.isIdMap = true := h (k, cl) (by simp)
      simp [migrateClasses, migrateClass_idMap c cl h1,
        ih (fun q hq => h q (by simp [hq])) c]

theorem migrateStreams_noLegacy (ss : List (String × RStream))
    (h : ∀ p ∈ ss, ∀ q ∈ p.2.classes, q.2.students.isIdMap = true) :
    ∀ c, migrateStreams c ss = (c, ss) := by
  induction ss with
  | nil => intro c; simp [migrateStreams]
  | cons p rest ih =>
      intro c
      obtain ⟨k, st⟩ := p
      have h1 : ∀ q ∈ st.classes, q.2.students.isIdMap = true :=
        fun q hq => h (k, st) (by simp) q hq
      simp [migrateStreams, migrateClasses_idMap st.classes h1 c,
        ih (fun p hp q hq => h p (by simp [hp]) q hq) c]

theorem migrate_noLegacy (r : Repo) (h : r.noLegacy = true) : migrate r = r := by
  obtain ⟨ss, sc, fc⟩ := r
  simp only [Repo.noLegacy, List.all_eq_true] at h
  simp [migrate, migrateStreams_noLegacy ss h sc]

theorem repoOfData_noLegacy (d : Data) : (repoOfData d).noLegacy = true := by
  simp only [Repo.noLegacy, repoOfData, List.all_eq_true]
  intro p hp q hq
  obtain ⟨p0, _, rfl⟩ := List.mem_map.mp hp
  simp only [rstreamOfS] at hq
  obtain ⟨q0, _, rfl⟩ := List.mem_map.mp hq
  simp [rclassOfS, StudentsField.isIdMap]

/-! Structural faithfulness of the file image of a state. -/

theorem map_pair_inj (f : α → β) (hf : ∀ a b, f a = f b → a = b) :
    ∀ l₁ l₂ : List (String × α),
      l₁.map (fun p => (p.1, f p.2)) = l₂.map (fun p => (p.1, f p.2)) → l₁ = l₂ := by
  intro l₁
  induction l₁ with
  | nil => intro l₂ h; cases l₂ <;> simp_all
  | cons p t ih =>
      intro l₂ h
      cases l₂ with
      | nil => simp at h
      | cons q t' =>
          obtain ⟨k, a⟩ := p
          obtain ⟨k', b⟩ := q
          simp only [List.map_cons, List.cons.injEq, Prod.mk.injEq] at h
          obtain ⟨⟨hk, hab⟩, ht⟩ := h
          subst hk
          have hab' := hf a b hab
          subst hab'
          simp [ih t' ht]

theorem rclassOfS_inj (a b : SClass) (h : rclassOfS a = rclassOfS b) : a = b := by
  cases a
  cases b
  simpa [rclassOfS] using h

theorem rstreamOfS_inj (a b : SStream) (h : rstreamOfS a = rstreamOfS b) : a = b := by
  cases a
  cases b
  simp only [rstreamOfS, RStream.mk.injEq] at h
  obtain ⟨h1, h2⟩ := h
  have := map_pair_inj rclassOfS rclassOfS_inj _ _ h1
  simp_all

theorem repoOfData_inj (a b : Data) (h : repoOfData a = repoOfData b) : a = b := by
  cases a
  cases b
  simp only [repoOfData, Repo.mk.injEq] at h
  obtain ⟨h1, h2, h3⟩ := h
  have := map_pair_inj rstreamOfS rstreamOfS_inj _ _ h1
  simp_all

/-- C4: saving any repository state in the operations shape (current
schema, both counters present, students as ID-keyed mappings) and loading
the resulting file yields exactly the saved tree — same streams, classes,
students, faculty, assignments and counter values — and the file image
determines the state uniquely. -/
theorem save_load_round_trip (d : Data) :
    load_data (some (some (save_data d))) = repoOfData d ∧
    (∀ d' : Data, repoOfData d' = repoOfData d → d' = d) := by
  refine ⟨?_, fun d' h => repoOfData_inj d' d h⟩
  have h1 : load_data (some (some (save_data d))) = migrate (repoOfData d) := by
    simp [load_data, save_data, repoOfData]
  rw [h1, migrate_noLegacy _ (repoOfData_noLegacy d)]

/-- Witness for C4 at a concrete state, also discharging the inner
uniqueness implication at that state. -/
theorem save_load_round_trip_witness :
    load_data (some (some (save_data ⟨[], 3, 4⟩))) = repoOfData ⟨[], 3, 4⟩ ∧
    (⟨[], 3, 4⟩ : Data) = ⟨[], 3, 4⟩ :=
  ⟨(save_load_round_trip ⟨[], 3, 4⟩).1,
    (save_load_round_trip ⟨[], 3, 4⟩).2 ⟨[], 3, 4⟩ rfl⟩

/-- C6: the load-time migration is idempotent once converted — on any
repository state with no legacy list-shaped student collection it changes
nothing: every class, student mapping and both counters stay exactly as
they were. -/
theorem migration_idempotent_on_migrated (r : Repo) (h : r.noLegacy = true) :
    migrate r = r :=
  migrate_noLegacy r h

/-- Witness for C6 at a concrete already-migrated repository. -/
theorem migration_idempotent_on_migrated_witness :
    exMigrated.noLegacy = true ∧ migrate exMigrated = exMigrated :=
  ⟨by decide, migration_idempotent_on_migrated exMigrated (by decide)⟩

/-! Legacy migration shape. -/

theorem legacy_foldl (names : List String) :
    ∀ c acc,
      names.foldl (fun (a : Nat × List (String × Student)) nm =>
        (a.1 + 1, a.2 ++ [(studentId a.1, ⟨nm⟩)])) (c, acc)
      = (c + names.length, acc ++ seqStudents c names) := by
  induction names with
  | nil => intro c acc; simp [seqStudents]
  | cons nm rest ih =>
      intro c acc
      simp only [List.foldl_cons]
      rw [ih (c + 1) (acc ++ [(studentId c, Student.mk nm)])]
      simp only [Prod.mk.injEq, List.length_cons, seqStudents]
      constructor
      · omega
      · simp [List.append_assoc]

theorem migrateClass_legacy (c : Nat) (names : List String) :
    migrateClass c ⟨.legacy names⟩ = (c + names.length, ⟨.idMap (seqStudents c names)⟩) := by
  simp [migrateClass, legacy_foldl names c []]

/-- C5: migrating a class whose students are a legacy name list replaces
the list by the ID-keyed mapping that assigns each name the next
sequential student ID in list order and advances the counter once per
name; concretely, loading a file with students `["Alice","Bob"]` and
`student_counter = 1` yields `{STU001: Alice, STU002: Bob}` and counter 3. -/
theorem legacy_migration_assigns_sequential_ids (c : Nat) (names : List String) :
    migrateClass c ⟨.legacy names⟩ = (c + names.length, ⟨.idMap (seqStudents c names)⟩) ∧
    load_data (some (some ⟨[("S", ⟨[("C", ⟨.legacy ["Alice", "Bob"]⟩)], []⟩)], some 1, some 1⟩))
      = ⟨[("S", ⟨[("C", ⟨.idMap [("STU001", ⟨"Alice"⟩), ("STU002", ⟨"Bob"⟩)]⟩)], []⟩)], 3, 1⟩ :=
  ⟨migrateClass_legacy c names, by decide⟩

/-- C2: on any state where some faculty of stream `s` has
`assigned_class` equal to a class name `c` present in `s`, `remove_class`
fails with Conflict and returns the entire repository unchanged. -/
theorem remove_class_conflict_unchanged (d : Data) (s c : String) (st : SStream)
    (hs : dget s d.streams = some st)
    (hc : ∃ cl, dget c st.classes = some cl)
    (hf : ∃ p ∈ st.faculty, p.2.assigned_class = some c) :
    remove_class d s c = .fail .Conflict d := by
  obtain ⟨cl, hc⟩ := hc
  obtain ⟨p, hp, ha⟩ := hf
  have hany : (st.faculty.any fun q => q.2.assigned_class = some c) = true := by
    rw [List.any_eq_true]
    exact ⟨p, hp, by simp [ha]⟩
  simp [remove_class, hs, hc, hany]

/-- Witness for C2 at the concrete scenario state. -/
theorem remove_class_conflict_unchanged_witness :
    remove_class bcaAssigned "BCA" "1A" = .fail .Conflict bcaAssigned :=
  remove_class_conflict_unchanged bcaAssigned "BCA" "1A"
    ⟨[("1A", ⟨[]⟩)], [("FAC001", ⟨"Dr. Rao", some "1A"⟩)]⟩
    (by decide) ⟨⟨[]⟩, by decide⟩
    ⟨("FAC001", ⟨"Dr. Rao", some "1A"⟩), by decide, by decide⟩

/-- C7: removing a present stream succeeds and deletes the whole stream
entry: the stream, and with it every class, student and faculty it owned,
is no longer reachable, while every other stream is untouched — so every
remaining faculty record lives in a stream other than `s`, and its
`assigned_class`, a name reference into its own stream, cannot refer to
any class that was under `s`. -/
theorem remove_stream_cascades (d : Data) (s : String) (st : SStream)
    (hs : dget s d.streams = some st) :
    remove_stream d s = .done none { d with streams := derase s d.streams } ∧
    dget s (derase s d.streams) = none ∧
    (∀ t, t ≠ s → dget t (derase s d.streams) = dget t d.streams) ∧
    (∀ t st', dget t (derase s d.streams) = some st' →
      t ≠ s ∧ dget t d.streams = some st') := by
  refine ⟨by simp [remove_stream, hs], dget_derase_self s d.streams,
    fun t ht => dget_derase_ne s t ht d.streams, fun t st' ht => ?_⟩
  by_cases hts : t = s
  · subst hts
    rw [dget_derase_self] at ht
    cases ht
  · exact ⟨hts, by rwa [dget_derase_ne s t hts] at ht⟩

/-- Witness for C7 at a concrete one-stream state. -/
theorem remove_stream_cascades_witness :
    remove_stream bcaStep1 "BCA" = .done none ⟨[], 1, 1⟩ ∧
    dget "BCA" (derase "BCA" bcaStep1.streams) = none :=
  ⟨((remove_stream_cascades bcaStep1 "BCA" ⟨[], []⟩ (by decide)).1).trans (by decide),
    (remove_stream_cascades bcaStep1 "BCA" ⟨[], []⟩ (by decide)).2.1⟩

/-- C8 counterexample: a backing file holding invalid UTF-8 is a read or
parse failure, yet load does not recover from it — `json.load` raises
UnicodeDecodeError, the line 15 handler matches only IOError and
json.JSONDecodeError, and the exception propagates: no repository is
produced at all, let alone the fresh empty one the claim promises. The
two caught failure kinds do recover with the fresh state. -/
theorem load_decode_error_is_fatal :
    load_data_total ReadOutcome.decodeError = none ∧
    load_data_total ReadOutcome.decodeError ≠ some freshRepo ∧
    load_data_total ReadOutcome.caughtError = some freshRepo :=
  ⟨rfl, by decide, by decide⟩

/-- C8 amended: `load_data` returns the fresh empty repository (no
streams, both counters 1) when the backing file is absent and when
reading or parsing it fails with one of the exception kinds the handler
catches (IOError or json.JSONDecodeError); a UnicodeDecodeError from a
non-UTF-8 file is not caught and load aborts with no repository instead
of recovering; a counter field missing from a successfully parsed file
is still set to 1 before the migration pass over the loaded tree runs. -/
theorem load_recovery_caught_and_counter_defaults :
    load_data_total ReadOutcome.fileAbsent = some freshRepo ∧
    load_data_total ReadOutcome.caughtError = some freshRepo ∧
    load_data_total ReadOutcome.decodeError = none ∧
    freshRepo.streams = [] ∧ freshRepo.student_counter = 1 ∧
    freshRepo.faculty_counter = 1 ∧
    (∀ f : RawFile, f.student_counter = none →
      load_data_total (ReadOutcome.parsed f)
        = some (migrate ⟨f.streams, 1, f.faculty_counter.getD 1⟩)) ∧
    (∀ f : RawFile, f.faculty_counter = none →
      load_data_total (ReadOutcome.parsed f)
        = some (migrate ⟨f.streams, f.student_counter.getD 1, 1⟩)) := by
  refine ⟨by decide, by decide, rfl, rfl, rfl, rfl, ?_, ?_⟩
  · intro f hf
    simp [load_data_total, load_data, hf]
  · intro f hf
    simp [load_data_total, load_data, hf]

/-- Witness for C8 (amended) at a concrete file lacking
`student_counter`. -/
theorem load_recovery_caught_and_counter_defaults_witness :
    load_data_total (ReadOutcome.parsed ⟨[], none, some 5⟩)
      = some (migrate ⟨[], 1, (some 5 : Option Nat).getD 1⟩) :=
  load_recovery_caught_and_counter_defaults.2.2.2.2.2.2.1 ⟨[], none, some 5⟩ rfl

/-! Failure atomicity. -/

theorem applyOp_fail_eq (d : Data) (op : Op) (e : ErpError) (d' : Data)
    (h : applyOp d op = .fail e d') : d' = d := by
  cases op <;>
    simp only [applyOp, add_stream, add_class, add_student, add_faculty,
      assign_faculty, remove_stream, remove_class, remove_student, remove_faculty] at h <;>
    (repeat' split at h)
  all_goals (try (cases h))
  all_goals rfl

/-- C10: every mutating operation is atomic on failure — whenever any of
the nine operations returns a failure outcome (NotFound, DuplicateKey or
Conflict), the repository state it leaves behind is exactly the state
before the call, both ID counters included: every failure check precedes
every mutation. -/
theorem mutations_atomic_on_failure (d : Data) (op : Op) (e : ErpError) (d' : Data)
    (h : applyOp d op = .fail e d') : d' = d :=
  applyOp_fail_eq d op e d' h

/-- Witness for C10: a duplicate `add_stream` fails and leaves the
concrete state unchanged. -/
theorem mutations_atomic_on_failure_witness :
    applyOp bcaStep1 (Op.addStream "BCA") = .fail .DuplicateKey bcaStep1 ∧
    bcaStep1 = bcaStep1 :=
  ⟨by decide, mutations_atomic_on_failure bcaStep1 (Op.addStream "BCA")
    .DuplicateKey bcaStep1 (by decide)⟩

/-! The BCA scenario (C3). -/

/-- C3 counterexample: in the scenario state where FAC001 of stream BCA
is assigned to class 1A, calling `assign_faculty` with no class (the
claim's `assignFaculty(..., none)`) does not reset the assignment — it
returns with the state unchanged, FAC001 still assigned to 1A — and the
subsequent `remove_class "BCA" "1A"` still fails with Conflict instead of
succeeding as the claim states. -/
theorem assign_none_then_remove_class_still_conflicts :
    assign_faculty bcaAssigned "BCA" "FAC001" none = .done none bcaAssigned ∧
    dget "BCA" bcaAssigned.streams
      = some ⟨[("1A", ⟨[]⟩)], [("FAC001", ⟨"Dr. Rao", some "1A"⟩)]⟩ ∧
    remove_class (assign_faculty bcaAssigned "BCA" "FAC001" none).post "BCA" "1A"
      = .fail .Conflict bcaAssigned := by
  refine ⟨by decide, by decide, ?_⟩
  decide

/-- C3 amended: in the scenario, `addFaculty "BCA" "Dr. Rao"` returns
FAC001, `assignFaculty "BCA" "FAC001" "1A"` succeeds and `removeClass
"BCA" "1A"` then fails with Conflict; `assignFaculty` with no class
leaves the assignment in place (there is no unassign path), so
`removeClass` keeps failing with Conflict; after `removeFaculty "BCA"
"FAC001"` instead, `removeClass "BCA" "1A"` succeeds and deletes the
class. -/
theorem bca_scenario_remove_class_after_remove_faculty :
    add_faculty bcaStep2 "BCA" "Dr. Rao" = .done (some "FAC001") bcaStep3 ∧
    assign_faculty bcaStep3 "BCA" "FAC001" (some "1A") = .done none bcaAssigned ∧
    remove_class bcaAssigned "BCA" "1A" = .fail .Conflict bcaAssigned ∧
    assign_faculty bcaAssigned "BCA" "FAC001" none = .done none bcaAssigned ∧
    remove_faculty bcaAssigned "BCA" "FAC001" = .done none bcaNoFac ∧
    remove_class bcaNoFac "BCA" "1A"
      = .done none ⟨[("BCA", ⟨[], []⟩)], 1, 2⟩ := by
  refine ⟨by decide, by decide, by decide, by decide, by decide, ?_⟩
  decide

/-! Assignment preservation (C9). -/

theorem pres_unchanged {ss : List (String × SStream)} {s fid c : String}
    {st : SStream} {f : Faculty}
    (hs : dget s ss = some st) (hf : dget fid st.faculty = some f)
    (ha : f.assigned_class = some c) :
    dget s ss = none ∨
    (∃ st', dget s ss = some st' ∧ dget fid st'.faculty = none) ∨
    (∃ st' f' c', dget s ss = some st' ∧ dget fid st'.faculty = some f' ∧
      f'.assigned_class = some c' ∧ (c' = c ∨ ∃ cl, dget c' st'.classes = some cl)) :=
  Or.inr (Or.inr ⟨st, f, c, hs, hf, ha, Or.inl rfl⟩)

/-- C9 counterexample: in `collideData`, faculty FAC001 of stream S is
assigned to class 1A, but `faculty_counter` is still 1, so `add_faculty`
generates the ID FAC001 again and overwrites the record: the same
faculty key now carries `assigned_class = none` — an operation other than
a faculty or stream removal has reset an assignment to absent. -/
theorem add_faculty_id_collision_resets_assignment :
    dget "S" collideData.streams
      = some ⟨[("1A", ⟨[]⟩)], [("FAC001", ⟨"Dr. X", some "1A"⟩)]⟩ ∧
    facultyId collideData.faculty_counter = "FAC001" ∧
    (applyOp collideData (Op.addFaculty "S" "Dr. New")).post
      = ⟨[("S", ⟨[("1A", ⟨[]⟩)], [("FAC001", ⟨"Dr. New", none⟩)]⟩)], 1, 2⟩ := by
  refine ⟨by decide, by decide, ?_⟩
  decide

/-- C9 amended: `assign_faculty` called with no class never resets an
assignment (it leaves the state untouched), and for any operation run
from a state where faculty `fid` of stream `s` is assigned to class `c` —
provided the operation does not allocate a colliding faculty ID, i.e.
`fid` differs from the ID the counter would generate — afterwards either
the whole stream is gone (removeStream), or the faculty record is gone
(removeFaculty), or the faculty still has an assignment: unchanged, or
rewritten by assignFaculty to a class that exists in the same stream. -/
theorem assigned_class_preserved (d : Data) (op : Op) (s fid c : String)
    (st : SStream) (f : Faculty)
    (hs : dget s d.streams = some st)
    (hf : dget fid st.faculty = some f)
    (ha : f.assigned_class = some c)
    (hfresh : fid ≠ facultyId d.faculty_counter) :
    (∀ (d0 : Data) (s0 fid0 : String), (assign_faculty d0 s0 fid0 none).post = d0) ∧
    (dget s ((applyOp d op).post).streams = none ∨
     (∃ st', dget s ((applyOp d op).post).streams = some st' ∧
        dget fid st'.faculty = none) ∨
     (∃ st' f' c', dget s ((applyOp d op).post).streams = some st' ∧
        dget fid st'.faculty = some f' ∧ f'.assigned_class = some c' ∧
        (c' = c ∨ ∃ cl, dget c' st'.classes = some cl))) := by
  constructor
  · intro d0 s0 fid0
    rcases h0 : dget s0 d0.streams with _ | st0
    · simp [assign_faculty, h0, Res.post]
    · rcases h1 : dget fid0 st0.faculty with _ | f0 <;>
        simp [assign_faculty, h0, h1, Res.post]
  cases op with
  | addStream n =>
      rcases h0 : dget n d.streams with _ | st0
      · simp only [applyOp, add_stream, h0, Res.post]
        have hns : s ≠ n := by
          rintro rfl
          rw [hs] at h0
          cases h0
        refine pres_unchanged ?_ hf ha
        simpa [dget_dinsert_ne n s hns] using hs
      · simp only [applyOp, add_stream, h0, Res.post]
        exact pres_unchanged hs hf ha
  | addClass s0 c0 =>
      rcases h0 : dget s0 d.streams with _ | st0
      · simp only [applyOp, add_class, h0, Res.post]
        exact pres_unchanged hs hf ha
      · rcases h1 : dget c0 st0.classes with _ | cl0
        · simp only [applyOp, add_class, h0, h1, Res.post]
          by_cases hss : s0 = s
          · subst hss
            rw [hs] at h0
            injection h0 with h0
            subst h0
            exact Or.inr (Or.inr ⟨_, f, c, dget_dinsert_self _ _ _, hf, ha, Or.inl rfl⟩)
          · have hsn : s ≠ s0 := fun hh => hss hh.symm
            refine pres_unchanged ?_ hf ha
            simpa [dget_dinsert_ne s0 s hsn] using hs
        · simp only [applyOp, add_class, h0, h1, Res.post]
          exact pres_unchanged hs hf ha
  | addStudent s0 c0 nm =>
      rcases h0 : dget s0 d.streams with _ | st0
      · simp only [applyOp, add_student, h0, Res.post]
        exact pres_unchanged hs hf ha
      · rcases h1 : dget c0 st0.classes with _ | cl0
        · simp only [applyOp, add_student, h0, h1, Res.post]
          exact pres_unchanged hs hf ha
        · simp only [applyOp, add_student, h0, h1, Res.post]
          by_cases hss : s0 = s
          · subst hss
            rw [hs] at h0
            injection h0 with h0
            subst h0
            exact Or.inr (Or.inr ⟨_, f, c, dget_dinsert_self _ _ _, hf, ha, Or.inl rfl⟩)
          · have hsn : s ≠ s0 := fun hh => hss hh.symm
            refine pres_unchanged ?_ hf ha
            simpa [dget_dinsert_ne s0 s hsn] using hs
  | addFaculty s0 nm =>
      rcases h0 : dget s0 d.streams with _ | st0
      · simp only [applyOp, add_faculty, h0, Res.post]
        exact pres_unchanged hs hf ha
      · simp only [applyOp, add_faculty, h0, Res.post]
        by_cases hss : s0 = s
        · subst hss
          rw [hs] at h0
          injection h0 with h0
          subst h0
          refine Or.inr (Or.inr ⟨_, f, c, dget_dinsert_self _ _ _, ?_, ha, Or.inl rfl⟩)
          simpa [dget_dinsert_ne (facultyId d.faculty_counter) fid hfresh] using hf
        · have hsn : s ≠ s0 := fun hh => hss hh.symm
          refine pres_unchanged ?_ hf ha
          simpa [dget_dinsert_ne s0 s hsn] using hs
  | assignFaculty s0 fid0 copt =>
      rcases h0 : dget s0 d.streams with _ | st0
      · simp only [applyOp, assign_faculty, h0, Res.post]
        exact pres_unchanged hs hf ha
      · rcases h1 : dget fid0 st0.faculty with _ | f0
        · simp only [applyOp, assign_faculty, h0, h1, Res.post]
          exact pres_unchanged hs hf ha
        · cases copt with
          | none =>
              simp only [applyOp, assign_faculty, h0, h1, Res.post]
              exact pres_unchanged hs hf ha
          | some cn =>
              rcases h2 : dget cn st0.classes with _ | cl0
              · simp only [applyOp, assign_faculty, h0, h1, h2, Res.post]
                exact pres_unchanged hs hf ha
              · simp only [applyOp, assign_faculty, h0, h1, h2, Res.post]
                by_cases hss : s0 = s
                · subst hss
                  rw [hs] at h0
                  injection h0 with h0
                  subst h0
                  by_cases hff : fid0 = fid
                  · subst hff
                    refine Or.inr (Or.inr ⟨_, _, cn, dget_dinsert_self _ _ _,
                      dget_dinsert_self _ _ _, rfl, Or.inr ⟨cl0, ?_⟩⟩)
                    exact h2
                  · have hfn : fid ≠ fid0 := fun hh => hff hh.symm
                    refine Or.inr (Or.inr ⟨_, f, c, dget_dinsert_self _ _ _, ?_, ha,
                      Or.inl rfl⟩)
                    simpa [dget_dinsert_ne fid0 fid hfn] using hf
                · have hsn : s ≠ s0 := fun hh => hss hh.symm
                  refine pres_unchanged ?_ hf ha
                  simpa [dget_dinsert_ne s0 s hsn] using hs
  | removeStream s0 =>
      rcases h0 : dget s0 d.streams with _ | st0
      · simp only [applyOp, remove_stream, h0, Res.post]
        exact pres_unchanged hs hf ha
      · simp only [applyOp, remove_stream, h0, Res.post]
        by_cases hss : s0 = s
        · subst hss
          exact Or.inl (dget_derase_self _ _)
        · have hsn : s ≠ s0 := fun hh => hss hh.symm
          refine pres_unchanged ?_ hf ha
          simpa [dget_derase_ne s0 s hsn] using hs
  | removeClass s0 c0 =>
      rcases h0 : dget s0 d.streams with _ | st0
      · simp only [applyOp, remove_class, h0, Res.post]
        exact pres_unchanged hs hf ha
      · rcases h1 : dget c0 st0.classes with _ | cl0
        · simp only [applyOp, remove_class, h0, h1, Res.post]
          exact pres_unchanged hs hf ha
        · rcases hco : st0.faculty.any (fun p => p.2.assigned_class = some c0) with _ | _
          · simp only [applyOp, remove_class, h0, h1]
            rw [hco, if_neg Bool.false_ne_true]
            simp only [Res.post]
            by_cases hss : s0 = s
            · subst hss
              rw [hs] at h0
              injection h0 with h0
              subst h0
              exact Or.inr (Or.inr ⟨_, f, c, dget_dinsert_self _ _ _, hf, ha, Or.inl rfl⟩)
            · have hsn : s ≠ s0 := fun hh => hss hh.symm
              refine pres_unchanged ?_ hf ha
              simpa [dget_dinsert_ne s0 s hsn] using hs
          · simp only [applyOp, remove_class, h0, h1]
            rw [hco, if_pos rfl]
            simp only [Res.post]
            exact pres_unchanged hs hf ha
  | removeStudent s0 c0 sid =>
      rcases h0 : dget s0 d.streams with _ | st0
      · simp only [applyOp, remove_student, h0, Res.post]
        exact pres_unchanged hs hf ha
      · rcases h1 : dget c0 st0.classes with _ | cl0
        · simp only [applyOp, remove_student, h0, h1, Res.post]
          exact pres_unchanged hs hf ha
        · rcases h2 : dget sid cl0.students with _ | stu
          · simp only [applyOp, remove_student, h0, h1, h2, Res.post]
            exact pres_unchanged hs hf ha
          · simp only [applyOp, remove_student, h0, h1, h2, Res.post]
            by_cases hss : s0 = s
            · subst hss
              rw [hs] at h0
              injection h0 with h0
              subst h0
              exact Or.inr (Or.inr ⟨_, f, c, dget_dinsert_self _ _ _, hf, ha, Or.inl rfl⟩)
            · have hsn : s ≠ s0 := fun hh => hss hh.symm
              refine pres_unchanged ?_ hf ha
              simpa [dget_dinsert_ne s0 s hsn] using hs
  | removeFaculty s0 fid0 =>
      rcases h0 : dget s0 d.streams with _ | st0
      · simp only [applyOp, remove_faculty, h0, Res.post]
        exact pres_unchanged hs hf ha
      · rcases h1 : dget fid0 st0.faculty with _ | f0
        · simp only [applyOp, remove_faculty, h0, h1, Res.post]
          exact pres_unchanged hs hf ha
        · simp only [applyOp, remove_faculty, h0, h1, Res.post]
          by_cases hss : s0 = s
          · subst hss
            rw [hs] at h0
            injection h0 with h0
            subst h0
            by_cases hff : fid0 = fid
            · subst hff
              refine Or.inr (Or.inl ⟨_, dget_dinsert_self _ _ _, ?_⟩)
              exact dget_derase_self _ _
            · have hfn : fid ≠ fid0 := fun hh => hff hh.symm
              refine Or.inr (Or.inr ⟨_, f, c, dget_dinsert_self _ _ _, ?_, ha,
                Or.inl rfl⟩)
              simpa [dget_derase_ne fid0 fid hfn] using hf
          · have hsn : s ≠ s0 := fun hh => hss hh.symm
            refine pres_unchanged ?_ hf ha
            simpa [dget_dinsert_ne s0 s hsn] using hs

/-- Witness for C9 (amended) at the concrete scenario state, with the
operation `addStream "Z"`. -/
theorem assigned_class_preserved_witness :
    dget "BCA" bcaAssigned.streams
      = some ⟨[("1A", ⟨[]⟩)], [("FAC001", ⟨"Dr. Rao", some "1A"⟩)]⟩ ∧
    ("FAC001" : String) ≠ facultyId bcaAssigned.faculty_counter ∧
    ((∀ (d0 : Data) (s0 fid0 : String), (assign_faculty d0 s0 fid0 none).post = d0) ∧
     (dget "BCA" ((applyOp bcaAssigned (Op.addStream "Z")).post).streams = none ∨
      (∃ st', dget "BCA" ((applyOp bcaAssigned (Op.addStream "Z")).post).streams = some st' ∧
         dget "FAC001" st'.faculty = none) ∨
      (∃ st' f' c', dget "BCA" ((applyOp bcaAssigned (Op.addStream "Z")).post).streams = some st' ∧
         dget "FAC001" st'.faculty = some f' ∧ f'.assigned_class = some c' ∧
         (c' = "1A" ∨ ∃ cl, dget c' st'.classes = some cl)))) :=
  ⟨by decide, by decide,
    assigned_class_preserved bcaAssigned (Op.addStream "Z") "BCA" "FAC001" "1A"
      ⟨[("1A", ⟨[]⟩)], [("FAC001", ⟨"Dr. Rao", some "1A"⟩)]⟩
      ⟨"Dr. Rao", some "1A"⟩ (by decide) (by decide) (by decide) (by decide)⟩

end Erp
